import Mathlib

/-!
Shallow embedding of the breakout-screening core of `src/app.py`
(functions `get_taiwan_stock_tickers` and `check_breakout_dna_stable`,
and the candidate-list construction of the tab-4 database-theme-stocks
mode), together with theorems settling the frozen claims about it.

Numbers are modelled as rationals.  Python `round(x, 2)` is modelled by
`round2` below (round-half-up on the scaled value); none of the claims
depends on the tie-breaking convention of rounding.  Pandas rolling means
are evaluated exactly at the cells the source reads (`iloc[-1]`, and
`iloc[-5]` for MA60): those are the only cells of the computed columns
that feed the decision.  The Yahoo fetch is abstracted as a per-attempt
oracle returning either a bar list or an error.
-/

set_option maxRecDepth 4000

namespace StockScan

/-- One OHLCV bar; the screening code reads only the Close and Volume
columns. -/
structure Bar where
  close : ℚ
  volume : ℚ

/-- Python `round(x, 2)`: scale by 100, round to an integer, scale back. -/
def round2 (q : ℚ) : ℚ := ((round (q * 100) : ℤ) : ℚ) / 100

/-- The last `k` entries of a list (the window of `rolling(k)` at the last
row). -/
def lastN (k : Nat) (l : List ℚ) : List ℚ := l.drop (l.length - k)

/-- The entry of a column at position `k` from the end (`iloc[-k]`), with
junk value 0 out of range (never exercised: the code guards
`len(df) >= 245`). -/
def idxEnd (l : List ℚ) (k : Nat) : ℚ := (l.drop (l.length - k)).headD 0

/-- A rolling(k) mean evaluated at the last row: mean of the last `k`
entries. -/
def maEnd (k : Nat) (l : List ℚ) : ℚ := (lastN k l).sum / (k : ℚ)

/-- The Close column of a fetched frame. -/
def closes (df : List Bar) : List ℚ := df.map Bar.close

/-- The Volume column of a fetched frame (shares). -/
def volumes (df : List Bar) : List ℚ := df.map Bar.volume

/-- The latest close (line 53 / 76 of `src/app.py`). -/
def lastClose (df : List Bar) : ℚ := idxEnd (closes df) 1

/-- The latest volume in shares. -/
def lastVolume (df : List Bar) : ℚ := idxEnd (volumes df) 1

/-- Line 54: the 20-bar rolling average volume at the latest bar. -/
def volAvg20 (df : List Bar) : ℚ := maEnd 20 (volumes df)

/-- Lines 58-62: the liquidity filter.  Volume is in shares, so both the
latest volume and the 20-bar average are divided by 1000 to get round
lots; the symbol is skipped when the latest-bar lots are below the
caller-supplied `min_volume` floor OR the average lots are below a
hardcoded 300. -/
def liquidityExcluded (df : List Bar) (min_volume : ℚ) : Prop :=
  lastVolume df / 1000 < min_volume ∨ volAvg20 df / 1000 < 300

instance (df : List Bar) (m : ℚ) : Decidable (liquidityExcluded df m) :=
  inferInstanceAs (Decidable (_ ∨ _))

/-- MA5 at the latest bar. -/
def ma5Last (df : List Bar) : ℚ := maEnd 5 (closes df)

/-- MA10 at the latest bar. -/
def ma10Last (df : List Bar) : ℚ := maEnd 10 (closes df)

/-- MA20 at the latest bar. -/
def ma20Last (df : List Bar) : ℚ := maEnd 20 (closes df)

/-- MA60 at the latest bar. -/
def ma60Last (df : List Bar) : ℚ := maEnd 60 (closes df)

/-- MA240 at the latest bar. -/
def ma240Last (df : List Bar) : ℚ := maEnd 240 (closes df)

/-- The MA60 cell read at `iloc[-5]` (line 84): the rolling 60-bar mean
evaluated at the bar five positions from the end, i.e. over the closes at
positions n-64 through n-5. -/
def ma60Prev5 (df : List Bar) : ℚ :=
  maEnd 60 ((closes df).take ((closes df).length - 4))

/-- Lines 79-80 as a pure function of the MA triple:
`round((max(ma_list) / min(ma_list) - 1) * 100, 2)`. -/
def convGapTriple (a b c : ℚ) : ℚ :=
  round2 ((max a (max b c) / min a (min b c) - 1) * 100)

/-- The convergence gap of a series: `convGapTriple` applied to
(MA5, MA10, MA20) at the latest bar. -/
def convGap (df : List Bar) : ℚ :=
  convGapTriple (ma5Last df) (ma10Last df) (ma20Last df)

/-- Line 82: the volume ratio, rounded; falls back to 1 when the 20-bar
average volume is not positive. -/
def volRatio (df : List Bar) : ℚ :=
  if 0 < volAvg20 df then round2 (lastVolume df / volAvg20 df) else 1

/-- One step of `ewm(span, adjust=False)` with smoothing factor `a`. -/
def ewmStep (a prev x : ℚ) : ℚ := (1 - a) * prev + a * x

/-- Tail of the exponentially weighted mean, seeded with `e`. -/
def ewmAcc (a e : ℚ) : List ℚ → List ℚ
  | [] => []
  | x :: xs => ewmStep a e x :: ewmAcc a (ewmStep a e x) xs

/-- `ewm(span, adjust=False).mean()` with `a = 2/(span+1)`; the first
output equals the first input. -/
def ewm (a : ℚ) : List ℚ → List ℚ
  | [] => []
  | x :: xs => x :: ewmAcc a x xs

/-- Lines 70-74: the MACD histogram column.  DIF is EMA12 minus EMA26,
DEA is the 9-span EMA of DIF, and the histogram is DIF minus DEA
(spans 12, 26, 9 give smoothing factors 2/13, 2/27, 2/10). -/
def macdHist (cl : List ℚ) : List ℚ :=
  let exp1 := ewm (2 / 13) cl
  let exp2 := ewm (2 / 27) cl
  let dif := List.zipWith (fun a b => a - b) exp1 exp2
  let dea := ewm (2 / 10) dif
  List.zipWith (fun a b => a - b) dif dea

/-- The latest MACD histogram value. -/
def histLast (df : List Bar) : ℚ := idxEnd (macdHist (closes df)) 1

/-- The previous MACD histogram value (`iloc[-2]`). -/
def histPrev (df : List Bar) : ℚ := idxEnd (macdHist (closes df)) 2

/-- Line 91: the position label, from comparing the latest close with
MA240. -/
def typeLabel (df : List Bar) : String :=
  if ma240Last df < lastClose df then "🚀 可能飆股 (長線無壓)" else "🩹 補漲股 (年線壓力)"

/-- Line 92: the momentum label, from comparing the latest MACD histogram
value with the previous one. -/
def signalLabel (df : List Bar) : String :=
  if histPrev df < histLast df then "🔥 轉強" else "⏳ 整理"

/-- A value of the Python result dict: numeric or string. -/
inductive HVal where
  | num (q : ℚ)
  | str (s : String)

/-- The result dict of lines 86-93, as an association list in source
order: sid, price, gap, v_ratio, type, signal. -/
def mkHit (ticker : String) (df : List Bar) : List (String × HVal) :=
  [("sid", HVal.str ticker),
   ("price", HVal.num (round2 (lastClose df))),
   ("gap", HVal.num (convGap df)),
   ("v_ratio", HVal.num (volRatio df)),
   ("type", HVal.str (typeLabel df)),
   ("signal", HVal.str (signalLabel df))]

/-- The body of one successful-fetch pass of `check_breakout_dna_stable`
(lines 52-94): the history guard, the liquidity filter, and the four-way
AND decision on gap, volume ratio, close above MA60, and MA60 rising
relative to its `iloc[-5]` cell. -/
def check_breakout_core (ticker : String) (df : List Bar)
    (g_limit v_limit min_volume : ℚ) : Option (List (String × HVal)) :=
  if df.length < 245 then none
  else if liquidityExcluded df min_volume then none
  else if convGap df ≤ g_limit ∧ volRatio df ≤ v_limit ∧
      ma60Last df < lastClose df ∧ ma60Prev5 df < ma60Last df then
    some (mkHit ticker df)
  else none

/-- The retry loop of lines 49-97: attempt index `i`, `k` attempts left.
A raising fetch falls through to the next attempt (the `time.sleep(1)` is
irrelevant to the result); a successful fetch runs the body and returns
its result directly. -/
def attemptFrom (fetch : Nat → Except String (List Bar)) (ticker : String)
    (g_limit v_limit min_volume : ℚ) : Nat → Nat → Option (List (String × HVal))
  | _, 0 => none
  | i, Nat.succ k =>
    match fetch i with
    | Except.ok df => check_breakout_core ticker df g_limit v_limit min_volume
    | Except.error _ => attemptFrom fetch ticker g_limit v_limit min_volume (i + 1) k

/-- Whole-function model of `check_breakout_dna_stable`:
`for attempt in range(3)` around the body, then a final `return None`. -/
def check_breakout_dna_stable (fetch : Nat → Except String (List Bar))
    (ticker : String) (g_limit v_limit min_volume : ℚ) :
    Option (List (String × HVal)) :=
  attemptFrom fetch ticker g_limit v_limit min_volume 0 3

/-- One entry of the external `twstock.codes` registry: the
instrument-type string and the market string. -/
structure CodeInfo where
  type : String
  market : String

/-- Whether `pat` occurs at the head of the second list. -/
def startsWithChars : List Char → List Char → Bool
  | [], _ => true
  | _ :: _, [] => false
  | a :: as, b :: bs => a == b && startsWithChars as bs

/-- Python substring test (`needle in hay`). -/
def hasSub (needle : List Char) : List Char → Bool
  | [] => needle.isEmpty
  | c :: rest => startsWithChars needle (c :: rest) || hasSub needle rest

/-- Line 33: `code.isdigit() and len(code) == 4`. -/
def isFourDigitCode (s : String) : Bool :=
  s.data.all Char.isDigit && s.data.length == 4

/-- Lines 33-38 for one registry entry: skip non-4-digit codes, skip
types containing 權證 (warrant) or ETF, tag market 上市 with `.TW` and
上櫃 with `.TWO`, skip all other markets. -/
def tickerOf (code : String) (info : CodeInfo) : Option String :=
  if isFourDigitCode code = true then
    if hasSub "權證".data info.type.data || hasSub "ETF".data info.type.data then none
    else if info.market = "上市" then some (code ++ ".TW")
    else if info.market = "上櫃" then some (code ++ ".TWO")
    else none
  else none

/-- Function `get_taiwan_stock_tickers` (lines 29-39), with the external
registry passed in; the final `list(set(...))` is modelled by `dedup`,
which has the same membership. -/
def get_taiwan_stock_tickers (all_codes : List (String × CodeInfo)) : List String :=
  (all_codes.filterMap (fun p => tickerOf p.1 p.2)).dedup

/-- Python `int(s)` for a digit string. -/
def natOfDigits (s : String) : Nat :=
  s.data.foldl (fun n c => 10 * n + (c.toNat - 48)) 0

/-- Line 209: the database-theme-stocks candidate list, tagging each
extracted code with `.TW` when `int(s) < 9000` and with `.TWO`
otherwise. -/
def dbCandidateTickers (sids : List String) : List String :=
  sids.dedup.map (fun s =>
    if natOfDigits s < 9000 then s ++ ".TW" else s ++ ".TWO")

/-- A 245-bar series that matches: flat at close 100 with a last close of
101, constant volume of 1,000,000 shares (1000 lots) per bar. -/
def wBars : List Bar := List.replicate 244 ⟨100, 1000000⟩ ++ [⟨101, 1000000⟩]

/-- A 245-bar series whose latest bar trades 600 lots (above the default
500-lot floor) but whose 20-bar average is only 30 lots. -/
def lowLiqBars : List Bar := List.replicate 244 ⟨100, 0⟩ ++ [⟨100, 600000⟩]

/-- A 245-bar series with zero volume throughout. -/
def zeroVolBars : List Bar := List.replicate 245 ⟨100, 0⟩

/-! ### Helper lemmas: list computations -/

theorem drop_replicate (c : ℚ) : ∀ n j, (List.replicate n c).drop j = List.replicate (n - j) c := by
  intro n
  induction n with
  | zero => intro j; simp
  | succ n ih =>
    intro j
    cases j with
    | zero => simp
    | succ j => simp [List.replicate_succ, ih j]

theorem take_replicate_of_le (c : ℚ) :
    ∀ n j, j ≤ n → (List.replicate n c).take j = List.replicate j c := by
  intro n
  induction n with
  | zero => intro j hj; interval_cases j; simp
  | succ n ih =>
    intro j hj
    cases j with
    | zero => simp
    | succ j => simp [List.replicate_succ, ih j (Nat.le_of_succ_le_succ hj)]

theorem maEnd_repl (k n : Nat) (c d : ℚ) (hk : 1 ≤ k) (h : k ≤ n + 1) :
    maEnd k (List.replicate n c ++ [d]) = (((k - 1 : Nat) : ℚ) * c + d) / (k : ℚ) := by
  unfold maEnd lastN
  have hlen : (List.replicate n c ++ [d]).length = n + 1 := by simp
  rw [hlen]
  have hle : n + 1 - k ≤ (List.replicate n c).length := by simp; omega
  rw [List.drop_append_of_le_length hle, drop_replicate]
  have harith : n - (n + 1 - k) = k - 1 := by omega
  rw [harith]
  simp [List.sum_append, List.sum_replicate, nsmul_eq_mul]

theorem maEnd_replicate (k n : Nat) (c : ℚ) (hk : 1 ≤ k) (h : k ≤ n) :
    maEnd k (List.replicate n c) = c := by
  unfold maEnd lastN
  rw [List.length_replicate, drop_replicate]
  have harith : n - (n - k) = k := by omega
  rw [harith, List.sum_replicate, nsmul_eq_mul]
  have hk0 : ((k : ℚ)) ≠ 0 := Nat.cast_ne_zero.mpr (by omega)
  field_simp

theorem idxEnd_repl_one (n : Nat) (c d : ℚ) :
    idxEnd (List.replicate n c ++ [d]) 1 = d := by
  unfold idxEnd
  have hlen : (List.replicate n c ++ [d]).length = n + 1 := by simp
  rw [hlen]
  have hle : n + 1 - 1 ≤ (List.replicate n c).length := by simp
  rw [List.drop_append_of_le_length hle, drop_replicate]
  simp

theorem idxEnd_replicate_one (n : Nat) (c : ℚ) (h : 1 ≤ n) :
    idxEnd (List.replicate n c) 1 = c := by
  unfold idxEnd
  rw [List.length_replicate, drop_replicate]
  have harith : n - (n - 1) = 1 := by omega
  rw [harith]
  simp

theorem round_eq_of (q : ℚ) (z : ℤ) (h1 : (z : ℚ) ≤ q + 1 / 2) (h2 : q + 1 / 2 < z + 1) :
    round q = z := by
  rw [round_eq]
  exact Int.floor_eq_iff.mpr ⟨h1, h2⟩

theorem round2_nonneg (q : ℚ) (h : 0 ≤ q) : 0 ≤ round2 q := by
  unfold round2
  have hfl : (0 : ℤ) ≤ round (q * 100) := by
    rw [round_eq]
    refine Int.floor_nonneg.mpr ?_
    nlinarith
  have hnum : (0 : ℚ) ≤ ((round (q * 100) : ℤ) : ℚ) := by exact_mod_cast hfl
  positivity

/-! ### Helper lemmas: values on the concrete series -/

theorem closes_wBars : closes wBars = List.replicate 244 100 ++ [101] := by
  unfold wBars closes
  rw [List.map_append, List.map_replicate]
  rfl

theorem volumes_wBars : volumes wBars = List.replicate 244 1000000 ++ [1000000] := by
  unfold wBars volumes
  rw [List.map_append, List.map_replicate]
  rfl

theorem length_wBars : wBars.length = 245 := by
  unfold wBars
  rw [List.length_append, List.length_replicate]
  rfl

theorem lastClose_wBars : lastClose wBars = 101 := by
  unfold lastClose
  rw [closes_wBars, idxEnd_repl_one]

theorem lastVolume_wBars : lastVolume wBars = 1000000 := by
  unfold lastVolume
  rw [volumes_wBars, idxEnd_repl_one]

theorem volAvg20_wBars : volAvg20 wBars = 1000000 := by
  unfold volAvg20
  rw [volumes_wBars, maEnd_repl 20 244 1000000 1000000 (by omega) (by omega)]
  norm_num

theorem not_liq_wBars : ¬ liquidityExcluded wBars 500 := by
  unfold liquidityExcluded
  rw [lastVolume_wBars, volAvg20_wBars]
  push_neg
  norm_num

theorem ma5_wBars : ma5Last wBars = 501 / 5 := by
  unfold ma5Last
  rw [closes_wBars, maEnd_repl 5 244 100 101 (by omega) (by omega)]
  norm_num

theorem ma10_wBars : ma10Last wBars = 1001 / 10 := by
  unfold ma10Last
  rw [closes_wBars, maEnd_repl 10 244 100 101 (by omega) (by omega)]
  norm_num

theorem ma20_wBars : ma20Last wBars = 2001 / 20 := by
  unfold ma20Last
  rw [closes_wBars, maEnd_repl 20 244 100 101 (by omega) (by omega)]
  norm_num

theorem ma60_wBars : ma60Last wBars = 6001 / 60 := by
  unfold ma60Last
  rw [closes_wBars, maEnd_repl 60 244 100 101 (by omega) (by omega)]
  norm_num

theorem ma60Prev5_wBars : ma60Prev5 wBars = 100 := by
  unfold ma60Prev5
  rw [closes_wBars]
  have hlen : (List.replicate 244 (100 : ℚ) ++ [101]).length = 245 := by
    rw [List.length_append, List.length_replicate]
    rfl
  rw [hlen]
  have htake : (List.replicate 244 (100 : ℚ) ++ [101]).take (245 - 4) =
      List.replicate 241 100 := by
    rw [List.take_append_of_le_length (by rw [List.length_replicate]; omega)]
    exact take_replicate_of_le 100 244 241 (by omega)
  rw [htake, maEnd_replicate 60 241 100 (by omega) (by omega)]

theorem convGap_wBars : convGap wBars = 3 / 20 := by
  unfold convGap
  rw [ma5_wBars, ma10_wBars, ma20_wBars]
  unfold convGapTriple
  rw [show max (1001 / 10 : ℚ) (2001 / 20) = 1001 / 10 from max_eq_left (by norm_num)]
  rw [show max (501 / 5 : ℚ) (1001 / 10) = 501 / 5 from max_eq_left (by norm_num)]
  rw [show min (1001 / 10 : ℚ) (2001 / 20) = 2001 / 20 from min_eq_right (by norm_num)]
  rw [show min (501 / 5 : ℚ) (2001 / 20) = 2001 / 20 from min_eq_right (by norm_num)]
  unfold round2
  rw [show ((501 / 5 : ℚ) / (2001 / 20) - 1) * 100 * 100 = 10000 / 667 by norm_num]
  rw [round_eq_of (10000 / 667) 15 (by norm_num) (by norm_num)]
  norm_num

theorem volRatio_wBars : volRatio wBars = 1 := by
  unfold volRatio
  rw [lastVolume_wBars, volAvg20_wBars, if_pos (by norm_num)]
  unfold round2
  rw [show ((1000000 : ℚ) / 1000000) * 100 = 100 by norm_num]
  rw [round_eq_of 100 100 (by norm_num) (by norm_num)]
  norm_num

theorem core_wBars : check_breakout_core "2330.TW" wBars 1 1 500 =
    some (mkHit "2330.TW" wBars) := by
  unfold check_breakout_core
  rw [if_neg (by rw [length_wBars]; omega), if_neg not_liq_wBars]
  refine if_pos ⟨?_, ?_, ?_, ?_⟩
  · rw [convGap_wBars]; norm_num
  · rw [volRatio_wBars]
  · rw [ma60_wBars, lastClose_wBars]; norm_num
  · rw [ma60Prev5_wBars, ma60_wBars]; norm_num

theorem volumes_lowLiqBars : volumes lowLiqBars = List.replicate 244 0 ++ [600000] := by
  unfold lowLiqBars volumes
  rw [List.map_append, List.map_replicate]
  rfl

theorem lastVolume_lowLiqBars : lastVolume lowLiqBars = 600000 := by
  unfold lastVolume
  rw [volumes_lowLiqBars, idxEnd_repl_one]

theorem volAvg20_lowLiqBars : volAvg20 lowLiqBars = 30000 := by
  unfold volAvg20
  rw [volumes_lowLiqBars, maEnd_repl 20 244 0 600000 (by omega) (by omega)]
  norm_num

theorem liq_lowLiqBars : liquidityExcluded lowLiqBars 500 := by
  unfold liquidityExcluded
  rw [volAvg20_lowLiqBars]
  right
  norm_num

theorem volAvg20_zeroVolBars : volAvg20 zeroVolBars = 0 := by
  unfold volAvg20
  have hvol : volumes zeroVolBars = List.replicate 245 0 := by
    unfold zeroVolBars volumes
    rw [List.map_replicate]
  rw [hvol, maEnd_replicate 20 245 0 (by omega) (by omega)]

/-! ### Claim theorems -/

/-- C1: for a series with at least 245 bars that passes the liquidity
filter, the classifier reports a match (returns a hit record) if and only
if the convergence gap is at most the caller-supplied limit, the volume
ratio is at most the caller-supplied limit, the latest close exceeds MA60,
and MA60 at the latest bar exceeds its value read five positions from the
end of the MA60 column (`iloc[-5]`). -/
theorem check_breakout_match_iff (ticker : String) (df : List Bar)
    (g_limit v_limit min_volume : ℚ)
    (hlen : 245 ≤ df.length) (hliq : ¬ liquidityExcluded df min_volume) :
    (∃ hit, check_breakout_core ticker df g_limit v_limit min_volume = some hit) ↔
      (convGap df ≤ g_limit ∧ volRatio df ≤ v_limit ∧
        ma60Last df < lastClose df ∧ ma60Prev5 df < ma60Last df) := by
  unfold check_breakout_core
  rw [if_neg (Nat.not_lt.mpr hlen), if_neg hliq]
  by_cases hc : convGap df ≤ g_limit ∧ volRatio df ≤ v_limit ∧
      ma60Last df < lastClose df ∧ ma60Prev5 df < ma60Last df
  · rw [if_pos hc]
    exact iff_of_true ⟨mkHit ticker df, rfl⟩ hc
  · rw [if_neg hc]
    exact iff_of_false (fun h => by obtain ⟨hit, hh⟩ := h; cases hh) hc

/-- C1 witness: the hypotheses hold for the concrete 245-bar series
`wBars` with both limits at 1 and the default 500-lot floor. -/
theorem check_breakout_match_iff_witness :
    (∃ hit, check_breakout_core "2330.TW" wBars 1 1 500 = some hit) ↔
      (convGap wBars ≤ 1 ∧ volRatio wBars ≤ 1 ∧
        ma60Last wBars < lastClose wBars ∧ ma60Prev5 wBars < ma60Last wBars) :=
  check_breakout_match_iff "2330.TW" wBars 1 1 500
    (by rw [length_wBars]) not_liq_wBars

/-- C2 counterexample: the latest bar of `lowLiqBars` trades 600 lots,
which meets the 500-lot floor, yet the symbol is liquidity-excluded
(because its 20-bar average is 30 lots, below the hardcoded 300) and the
evaluation returns the no-result sentinel.  This refutes the claim that a
symbol whose latest-bar lots meet the floor is never liquidity-excluded. -/
theorem liquidity_latest_lots_counterexample :
    ¬ (lastVolume lowLiqBars / 1000 < 500) ∧ liquidityExcluded lowLiqBars 500 ∧
      check_breakout_core "0000.TW" lowLiqBars 1 1 500 = none := by
  refine ⟨?_, liq_lowLiqBars, ?_⟩
  · rw [lastVolume_lowLiqBars]
    norm_num
  · unfold check_breakout_core
    by_cases hlen : lowLiqBars.length < 245
    · rw [if_pos hlen]
    · rw [if_neg hlen, if_pos liq_lowLiqBars]

/-- C2 amended: a symbol is excluded by the minimum-liquidity check if and
only if its latest-bar lots (volume divided by 1000) are below the
caller-supplied floor OR its 20-bar average lots are below the hardcoded
300; a liquidity-excluded symbol always yields the no-result sentinel. -/
theorem liquidity_rule (ticker : String) (df : List Bar) (g v m : ℚ) :
    (liquidityExcluded df m ↔
      lastVolume df / 1000 < m ∨ volAvg20 df / 1000 < 300) ∧
    (liquidityExcluded df m → check_breakout_core ticker df g v m = none) := by
  refine ⟨Iff.rfl, fun h => ?_⟩
  unfold check_breakout_core
  by_cases hlen : df.length < 245
  · rw [if_pos hlen]
  · rw [if_neg hlen, if_pos h]

/-- C2 amended witness: instantiated on `lowLiqBars` with the default
floor. -/
theorem liquidity_rule_witness :
    check_breakout_core "0000.TW" lowLiqBars 2 2 500 = none :=
  (liquidity_rule "0000.TW" lowLiqBars 2 2 500).2 liq_lowLiqBars

/-- C3 counterexample: a match on `wBars` produces a hit whose keys are
exactly sid, price, gap, v_ratio, type and signal: there is no
longTermBias field in the result record (and this revision has no bias
filter at all), refuting the claim that every hit carries one. -/
theorem hit_no_bias_field_counterexample :
    check_breakout_core "2330.TW" wBars 1 1 500 = some (mkHit "2330.TW" wBars) ∧
      (mkHit "2330.TW" wBars).map Prod.fst =
        ["sid", "price", "gap", "v_ratio", "type", "signal"] ∧
      "longTermBias" ∉ (mkHit "2330.TW" wBars).map Prod.fst := by
  refine ⟨core_wBars, rfl, ?_⟩
  rw [show (mkHit "2330.TW" wBars).map Prod.fst =
      ["sid", "price", "gap", "v_ratio", "type", "signal"] from rfl]
  decide

/-- C3 amended: every hit record produced on a match contains exactly the
fields sid, price, gap, v_ratio, type and signal, in this order; no bias
field exists and no bias filter is applied in this revision. -/
theorem hit_fields (ticker : String) (df : List Bar) (g v m : ℚ)
    (hit : List (String × HVal))
    (h : check_breakout_core ticker df g v m = some hit) :
    hit.map Prod.fst = ["sid", "price", "gap", "v_ratio", "type", "signal"] := by
  unfold check_breakout_core at h
  split_ifs at h
  cases h
  rfl

/-- C3 amended witness: instantiated on the concrete match on `wBars`. -/
theorem hit_fields_witness :
    (mkHit "2330.TW" wBars).map Prod.fst =
      ["sid", "price", "gap", "v_ratio", "type", "signal"] :=
  hit_fields "2330.TW" wBars 1 1 500 (mkHit "2330.TW" wBars) core_wBars

/-- C4: for every fetched series with fewer than 245 bars (the empty
series included), the evaluation returns the no-result sentinel before
any moving average or classification is computed. -/
theorem insufficient_history_none (ticker : String) (df : List Bar)
    (g v m : ℚ) (h : df.length < 245) :
    check_breakout_core ticker df g v m = none := by
  unfold check_breakout_core
  rw [if_pos h]

/-- C4 witness: instantiated on the empty series. -/
theorem insufficient_history_none_witness :
    check_breakout_core "2330.TW" [] 1 1 500 = none :=
  insufficient_history_none "2330.TW" [] 1 1 500 (by simp)

/-- C5: if every fetch attempt errors, the per-symbol evaluation returns
the no-result sentinel (first conjunct), and the evaluation depends only
on the first three fetch attempts, i.e. it makes at most 3 attempts
(second conjunct).  The evaluation is a total function into an option
type, so no exception propagates out of it. -/
theorem retry_bounded_contained :
    (∀ (fetch : Nat → Except String (List Bar)) (t : String) (g v m : ℚ),
      (∀ i, ∃ e, fetch i = Except.error e) →
        check_breakout_dna_stable fetch t g v m = none) ∧
    (∀ (fetch fetch2 : Nat → Except String (List Bar)) (t : String) (g v m : ℚ),
      (∀ i, i < 3 → fetch i = fetch2 i) →
        check_breakout_dna_stable fetch t g v m =
          check_breakout_dna_stable fetch2 t g v m) := by
  have herr : ∀ (fetch : Nat → Except String (List Bar)) (t : String) (g v m : ℚ),
      (∀ i, ∃ e, fetch i = Except.error e) →
        ∀ k i, attemptFrom fetch t g v m i k = none := by
    intro fetch t g v m h k
    induction k with
    | zero => intro i; rfl
    | succ k ih =>
      intro i
      obtain ⟨e, he⟩ := h i
      unfold attemptFrom
      rw [he]
      exact ih (i + 1)
  have hcongr : ∀ (fetch fetch2 : Nat → Except String (List Bar)) (t : String)
      (g v m : ℚ) (k i : Nat), (∀ j, i ≤ j → j < i + k → fetch j = fetch2 j) →
        attemptFrom fetch t g v m i k = attemptFrom fetch2 t g v m i k := by
    intro fetch fetch2 t g v m k
    induction k with
    | zero => intro i _; rfl
    | succ k ih =>
      intro i h
      have h0 : fetch i = fetch2 i := h i le_rfl (by omega)
      unfold attemptFrom
      rw [h0]
      cases fetch2 i with
      | ok df => rfl
      | error e => exact ih (i + 1) (fun j hj1 hj2 => h j (by omega) (by omega))
  exact ⟨fun fetch t g v m h => herr fetch t g v m h 3 0,
    fun fetch fetch2 t g v m h =>
      hcongr fetch fetch2 t g v m 3 0 (fun j _ hj => h j (by omega))⟩

/-- A fetch oracle that raises on every attempt. -/
def failFetch : Nat → Except String (List Bar) := fun _ => Except.error "HTTPError"

/-- C5 witness: instantiated on a permanently failing fetch oracle. -/
theorem retry_bounded_contained_witness :
    check_breakout_dna_stable failFetch "2330.TW" 1 1 500 = none :=
  retry_bounded_contained.1 failFetch "2330.TW" 1 1 500 (fun _ => ⟨"HTTPError", rfl⟩)

/-- C6: a series whose 20-bar rolling average volume at the latest bar is
zero is always excluded with the no-result sentinel (first conjunct), and
every series that passes the liquidity filter has a strictly positive
20-bar average volume, so the guarded division in the volume ratio never
sees a zero divisor and its fallback branch is unreachable (second
conjunct). -/
theorem zero_avg_volume_contained :
    (∀ (t : String) (df : List Bar) (g v m : ℚ), volAvg20 df = 0 →
      check_breakout_core t df g v m = none) ∧
    (∀ (df : List Bar) (m : ℚ), ¬ liquidityExcluded df m → 0 < volAvg20 df) := by
  constructor
  · intro t df g v m h
    unfold check_breakout_core
    by_cases hlen : df.length < 245
    · rw [if_pos hlen]
    · rw [if_neg hlen,
        if_pos (show liquidityExcluded df m from Or.inr (by rw [h]; norm_num))]
  · intro df m h
    unfold liquidityExcluded at h
    push_neg at h
    linarith [h.2]

/-- C6 witness: the zero-volume series is excluded, and the matching
series `wBars`, which passes the liquidity filter, has positive average
volume. -/
theorem zero_avg_volume_contained_witness :
    check_breakout_core "0000.TW" zeroVolBars 1 1 500 = none ∧ 0 < volAvg20 wBars :=
  ⟨zero_avg_volume_contained.1 "0000.TW" zeroVolBars 1 1 500 volAvg20_zeroVolBars,
    zero_avg_volume_contained.2 wBars 500 not_liq_wBars⟩

/-- C7: the match decision is monotonic in the two thresholds: a symbol
that matches under gap limit g and volume-ratio limit v also matches under
any g2 at least g and v2 at least v, all else equal. -/
theorem match_monotone_in_limits (ticker : String) (df : List Bar)
    (g g2 v v2 m : ℚ) (hg : g ≤ g2) (hv : v ≤ v2)
    (h : ∃ hit, check_breakout_core ticker df g v m = some hit) :
    ∃ hit, check_breakout_core ticker df g2 v2 m = some hit := by
  obtain ⟨hit, hh⟩ := h
  unfold check_breakout_core at hh ⊢
  by_cases h1 : df.length < 245
  · rw [if_pos h1] at hh; cases hh
  rw [if_neg h1] at hh ⊢
  by_cases h2 : liquidityExcluded df m
  · rw [if_pos h2] at hh; cases hh
  rw [if_neg h2] at hh ⊢
  by_cases h3 : convGap df ≤ g ∧ volRatio df ≤ v ∧
      ma60Last df < lastClose df ∧ ma60Prev5 df < ma60Last df
  · obtain ⟨c1, c2, c3, c4⟩ := h3
    rw [if_pos ⟨le_trans c1 hg, le_trans c2 hv, c3, c4⟩]
    exact ⟨mkHit ticker df, rfl⟩
  · rw [if_neg h3] at hh; cases hh

/-- C7 witness: `wBars` matches under limits (1, 1), hence also under the
loosened limits (2, 2). -/
theorem match_monotone_in_limits_witness :
    ∃ hit, check_breakout_core "2330.TW" wBars 2 2 500 = some hit :=
  match_monotone_in_limits "2330.TW" wBars 1 2 1 2 500 (by norm_num) (by norm_num)
    ⟨mkHit "2330.TW" wBars, core_wBars⟩

/-- C8: for strictly positive inputs the convergence gap of a triple is
nonnegative (first conjunct), and the gap is invariant under every
permutation of the three moving averages (second conjunct). -/
theorem convGapTriple_nonneg_perm :
    (∀ a b c : ℚ, 0 < a → 0 < b → 0 < c → 0 ≤ convGapTriple a b c) ∧
    (∀ a b c : ℚ, convGapTriple a b c = convGapTriple a c b ∧
      convGapTriple a b c = convGapTriple b a c ∧
      convGapTriple a b c = convGapTriple b c a ∧
      convGapTriple a b c = convGapTriple c a b ∧
      convGapTriple a b c = convGapTriple c b a) := by
  have heq : ∀ a b c a2 b2 c2 : ℚ, max a (max b c) = max a2 (max b2 c2) →
      min a (min b c) = min a2 (min b2 c2) →
      convGapTriple a b c = convGapTriple a2 b2 c2 := by
    intro a b c a2 b2 c2 hM hm
    unfold convGapTriple
    rw [hM, hm]
  constructor
  · intro a b c ha hb hc
    have hmpos : 0 < min a (min b c) := lt_min ha (lt_min hb hc)
    have hmM : min a (min b c) ≤ max a (max b c) :=
      le_trans (min_le_left _ _) (le_max_left _ _)
    have hratio : 1 ≤ max a (max b c) / min a (min b c) :=
      (one_le_div hmpos).mpr hmM
    unfold convGapTriple
    refine round2_nonneg _ ?_
    nlinarith
  · intro a b c
    refine ⟨?_, ?_, ?_, ?_, ?_⟩ <;>
      refine heq _ _ _ _ _ _ ?_ ?_ <;>
      simp [max_comm, max_left_comm, max_assoc, min_comm, min_left_comm, min_assoc]

/-- C8 witness: instantiated at the positive triple (1, 2, 3) and its
reversal. -/
theorem convGapTriple_nonneg_perm_witness :
    0 ≤ convGapTriple 1 2 3 ∧ convGapTriple 1 2 3 = convGapTriple 3 2 1 :=
  ⟨convGapTriple_nonneg_perm.1 1 2 3 (by norm_num) (by norm_num) (by norm_num),
    (convGapTriple_nonneg_perm.2 1 2 3).2.2.2.2⟩

/-- A registry holding one beneficiary certificate (type 受益憑證) with a
4-digit code listed on the primary board. -/
def beneficiaryRegistry : List (String × CodeInfo) :=
  [("1234", ⟨"受益憑證", "上市"⟩)]

/-- C9 counterexample: a registry entry classified as a beneficiary
certificate (type 受益憑證) with a 4-digit code on the listed board is
returned by the universe provider: the type filter of
`get_taiwan_stock_tickers` only excludes types containing 權證 (warrant)
or ETF, so the claim that no beneficiary certificate is included fails. -/
theorem universe_beneficiary_counterexample :
    "1234.TW" ∈ get_taiwan_stock_tickers beneficiaryRegistry ∧
      ∀ p ∈ beneficiaryRegistry, p.2.type = "受益憑證" := by
  constructor
  · decide
  · intro p hp
    cases hp with
    | head => rfl
    | tail _ h => cases h

/-- C9 amended: every symbol returned by the universe provider comes from
a registry entry with a 4-digit numeric code whose type contains neither
權證 (warrant) nor ETF, carrying suffix `.TW` when the market is 上市
(listed board) and `.TWO` when it is 上櫃 (over-the-counter board);
beneficiary certificates are not excluded by their classification, only
warrants and ETFs are filtered by type. -/
theorem universe_tickers_shape (reg : List (String × CodeInfo)) (t : String)
    (h : t ∈ get_taiwan_stock_tickers reg) :
    ∃ code info, (code, info) ∈ reg ∧ isFourDigitCode code = true ∧
      hasSub "權證".data info.type.data = false ∧
      hasSub "ETF".data info.type.data = false ∧
      ((info.market = "上市" ∧ t = code ++ ".TW") ∨
        (info.market = "上櫃" ∧ t = code ++ ".TWO")) := by
  unfold get_taiwan_stock_tickers at h
  rw [List.mem_dedup] at h
  obtain ⟨p, hp, ht⟩ := List.mem_filterMap.mp h
  refine ⟨p.1, p.2, by simpa using hp, ?_⟩
  unfold tickerOf at ht
  split_ifs at ht with h1 h2 h3 h4
  all_goals first
    | (obtain rfl : _ = t := Option.some_inj.mp ht
       simp only [Bool.or_eq_true, not_or, Bool.not_eq_true] at h2
       exact ⟨h1, h2.1, h2.2, Or.inl ⟨h3, rfl⟩⟩)
    | (obtain rfl : _ = t := Option.some_inj.mp ht
       simp only [Bool.or_eq_true, not_or, Bool.not_eq_true] at h2
       exact ⟨h1, h2.1, h2.2, Or.inr ⟨h4, rfl⟩⟩)

/-- A registry holding one common stock on each board. -/
def sampleRegistry : List (String × CodeInfo) :=
  [("2330", ⟨"股票", "上市"⟩), ("9958", ⟨"股票", "上櫃"⟩)]

/-- C9 amended witness: instantiated on a membership in the tickers built
from `sampleRegistry`. -/
theorem universe_tickers_shape_witness :
    ∃ code info, (code, info) ∈ sampleRegistry ∧ isFourDigitCode code = true ∧
      hasSub "權證".data info.type.data = false ∧
      hasSub "ETF".data info.type.data = false ∧
      ((info.market = "上市" ∧ "2330.TW" = code ++ ".TW") ∨
        (info.market = "上櫃" ∧ "2330.TW" = code ++ ".TWO")) :=
  universe_tickers_shape sampleRegistry "2330.TW" (by decide)

/-- C10: in the database-theme-stocks mode the market suffix of each
candidate is inferred from the numeric code alone: every extracted code
in the deduplicated pool whose integer value is below 9000 contributes
its `.TW`-suffixed ticker, every code at 9000 or above contributes its
`.TWO`-suffixed ticker (first conjunct), and every candidate in the list
arises this way from some extracted code (second conjunct). -/
theorem db_mode_suffix_rule (sids : List String) (s : String) (h : s ∈ sids) :
    ((natOfDigits s < 9000 → s ++ ".TW" ∈ dbCandidateTickers sids) ∧
      (9000 ≤ natOfDigits s → s ++ ".TWO" ∈ dbCandidateTickers sids)) ∧
    (∀ t ∈ dbCandidateTickers sids, ∃ s2, s2 ∈ sids ∧
      t = (if natOfDigits s2 < 9000 then s2 ++ ".TW" else s2 ++ ".TWO")) := by
  constructor
  · constructor
    · intro hlt
      exact List.mem_map.mpr ⟨s, List.mem_dedup.mpr h, by rw [if_pos hlt]⟩
    · intro hge
      exact List.mem_map.mpr ⟨s, List.mem_dedup.mpr h, by rw [if_neg (by omega)]⟩
  · intro t ht
    obtain ⟨s2, hs2, hts⟩ := List.mem_map.mp ht
    exact ⟨s2, List.mem_dedup.mp hs2, hts.symm⟩

/-- C10 witness: instantiated on the pool containing the codes 2330 and
9958. -/
theorem db_mode_suffix_rule_witness :
    "2330" ++ ".TW" ∈ dbCandidateTickers ["2330", "9958"] ∧
      "9958" ++ ".TWO" ∈ dbCandidateTickers ["2330", "9958"] :=
  ⟨(db_mode_suffix_rule ["2330", "9958"] "2330" (by decide)).1.1 (by decide),
    (db_mode_suffix_rule ["2330", "9958"] "9958" (by decide)).1.2 (by decide)⟩

end StockScan
